import Mathlib

/-!
# Verification of the MISP ingestion pipeline

Shallow embedding of the three core scripts under
`src/PostgreSQL extracted database/`:

* `misp_backfill_v9_final_version.py` — full historical backfill,
* `misp_sync_v9_final_version.py`     — incremental delta sync,
* `misp_geo_backfill_v9_final_version.py` — geolocation enrichment.

The database is modelled as lists of rows (one list per table); each
script's sequence of commits is modelled as a trace of database states,
one element per `conn.commit()` call, so partial-failure behaviour
("the run raised after the k-th commit") is the statement "the observable
state is the k-th trace element".

Timestamp parsing (`parse_ts`, `to_dt`) goes through Python float
division / `datetime` parsing; those two helpers are kept as explicit
function parameters (`parseTs`, `toDt`) of the stages that use them —
no claim depends on their internals, only on where their results are
placed.
-/

/-- Timestamps (seconds since the epoch), as stored in the database. -/
abbrev Time := Int

/-! ## Table row shapes (target warehouse schema) -/

/-- A row of `events_minimal` (column list of `EVT_SQL`). -/
structure EventRow where
  id : Nat
  org_id : Option Nat
  info : Option String
  uuid : Option String
  date : Option String
  attribute_count : Option Nat
  last_modified : Option Time
  threat_level_id : Option Nat
  publish_timestamp : Option Time
  feed_name : Option String
  orgc_name : Option String
deriving DecidableEq, Repr

/-- A row of `attribute_correlations` (column list of `CORR_SQL`). -/
structure CorrRow where
  attr_id : Nat
  related_attr_id : Nat
  related_event_id : Nat
  relationship_type : String
  first_seen : Option Time
  last_seen : Option Time
  comment : String
deriving DecidableEq, Repr

/-- A row of `attributes_minimal` (column list `ATTR_COLS`). -/
structure AttrRow where
  id : Nat
  event_id : Nat
  category : Option String
  type : Option String
  value : String
  to_ids : Bool
  uuid : Option String
  created_ts : Option Time
  comment : String
  first_seen : Option Time
  last_seen : Option Time
  country_name : Option String
  country_code : Option String
  region_name : Option String
  city : Option String
  related_event_info : String
  event_info : String
  event_galaxy_names : String
deriving DecidableEq, Repr

/-- A row of `sync_state`. -/
structure SyncRow where
  id : Nat
  last_run : Option Time
deriving DecidableEq, Repr

/-- The warehouse: the four tables the pipeline writes. -/
structure DB where
  events_minimal : List EventRow
  attribute_correlations : List CorrRow
  attributes_minimal : List AttrRow
  sync_state : List SyncRow
deriving DecidableEq, Repr

/-! ## Fetched JSON record shapes -/

/-- An entry of an event's `Galaxy` list (only `name` is read). -/
structure Galaxy where
  name : String
deriving DecidableEq, Repr

/-- An embedded `RelatedAttribute` entry of a fetched attribute.
`none` models an absent JSON key (the scripts read each field with
`r.get(key)` / `r.get(key, default)`). -/
structure RelatedAttr where
  id : Nat
  event_id : Nat
  object_relation : Option String
  first_seen : Option String
  last_seen : Option String
  comment : Option String
deriving DecidableEq, Repr

/-- A fetched MISP attribute record (the fields the scripts read). -/
structure MispAttr where
  id : Nat
  event_id : Nat
  category : Option String
  type : Option String
  value : Option String
  to_ids : Option Bool
  uuid : Option String
  timestamp : Option String
  comment : Option String
  first_seen : Option String
  last_seen : Option String
  related : List RelatedAttr
deriving DecidableEq, Repr

/-- A fetched MISP event record (the fields the scripts read;
`feed_name` stands for `e.get("Feed",{}).get("name")` and `orgc_name`
for `e.get("Orgc",{}).get("name")`). -/
structure MispEvent where
  id : Nat
  org_id : Option Nat
  info : Option String
  uuid : Option String
  date : Option String
  attribute_count : Option Nat
  timestamp : Option String
  threat_level_id : Option Nat
  publish_timestamp : Option String
  feed_name : Option String
  orgc_name : Option String
  galaxies : List Galaxy
deriving DecidableEq, Repr

/-! ## Tunables (source constants) -/

/-- `CSV_CHUNK` of the backfill script: rows per COPY chunk. -/
def CSV_CHUNK_BACKFILL : Nat := 100000

/-- `CSV_CHUNK` of the sync script. -/
def CSV_CHUNK_SYNC : Nat := 10000

/-- `INTERVAL_H` of the sync script: default delta window, in hours. -/
def INTERVAL_H : Int := 4

/-! ## Insert-or-ignore (`ON CONFLICT ... DO NOTHING`) -/

/-- One `INSERT ... ON CONFLICT (key) DO NOTHING`: the row is appended
unless a row with the same conflict-target key already exists. -/
def insertIgnore {α κ : Type} [DecidableEq κ] (key : α → κ)
    (t : List α) (e : α) : List α :=
  if t.any (fun x => decide (key x = key e)) then t else t ++ [e]

/-- `execute_batch` over an insert-or-ignore template: the inserts run
in order. -/
def upsertBatch {α κ : Type} [DecidableEq κ] (key : α → κ)
    (t : List α) (es : List α) : List α :=
  es.foldl (insertIgnore key) t

/-! ## Row construction (normalizer) -/

/-- `evt_params` entry: one fetched event mapped to an `events_minimal`
row (`toDt` stands for the script's `to_dt`). -/
def evtRowOf (toDt : Option String → Option Time) (e : MispEvent) : EventRow :=
  { id := e.id
    org_id := e.org_id
    info := e.info
    uuid := e.uuid
    date := e.date
    attribute_count := e.attribute_count
    last_modified := toDt e.timestamp
    threat_level_id := e.threat_level_id
    publish_timestamp := toDt e.publish_timestamp
    feed_name := e.feed_name
    orgc_name := e.orgc_name }

/-- One `corr_params` entry built from a `RelatedAttribute` entry `r` of
the attribute with id `aid` (`parseTs` stands for `parse_ts`). -/
def corrOfRelated (parseTs : Option String → Option Time)
    (aid : Nat) (r : RelatedAttr) : CorrRow :=
  { attr_id := aid
    related_attr_id := r.id
    related_event_id := r.event_id
    relationship_type := r.object_relation.getD ""
    first_seen := parseTs r.first_seen
    last_seen := parseTs r.last_seen
    comment := r.comment.getD "" }

/-- The `corr_params` list: for each fetched attribute, one entry per
embedded `RelatedAttribute`. -/
def corrParamsOf (parseTs : Option String → Option Time)
    (attrs : List MispAttr) : List CorrRow :=
  attrs.flatMap (fun a => a.related.map (corrOfRelated parseTs a.id))

/-- The `id_to_value` map (`{int(a["id"]): a.get("value","") for a in
attrs}`), looked up with default `""`; a later entry with the same id
overwrites an earlier one. -/
def idToValue (attrs : List MispAttr) (rid : Nat) : String :=
  (((attrs.filter (fun a => decide (a.id = rid))).getLast?).map
    (fun a => a.value.getD "")).getD ""

/-- The `event_map` (`{int(e["id"]): e for e in evs}`); a later entry
with the same id overwrites an earlier one. -/
def eventMap (evs : List MispEvent) (eid : Nat) : Option MispEvent :=
  (evs.filter (fun e => decide (e.id = eid))).getLast?

/-- Truthiness of `a.get(key)` for a string-valued key: false for an
absent key or an empty string. -/
def truthyStr : Option String → Bool
  | none => false
  | some s => !s.isEmpty

/-- One part of `related_event_info`:
`f"{rel_evt}:{desc}|{val}"` with `desc` the related event's `info`,
newlines replaced, truncated to 50 characters. -/
def relPart (evs : List MispEvent) (attrs : List MispAttr)
    (r : RelatedAttr) : String :=
  let relEvt := r.event_id
  let desc := ((((eventMap evs relEvt).bind (fun e => e.info)).getD
    "").replace "\n" " ").take 50
  let val := idToValue attrs r.id
  s!"{relEvt}:{desc}|{val}"

/-- One CSV record of `write_csv`, as the `attributes_minimal` row it
loads: geography columns start as the null sentinel. -/
def attrRowOf (parseTs toDt : Option String → Option Time)
    (evs : List MispEvent) (attrsAll : List MispAttr)
    (a : MispAttr) : AttrRow :=
  let evtObj := eventMap evs a.event_id
  { id := a.id
    event_id := a.event_id
    category := a.category
    type := a.type
    value := (a.value.getD "").replace "\n" " "
    to_ids := a.to_ids.getD false
    uuid := a.uuid
    created_ts := if truthyStr a.timestamp then toDt a.timestamp else none
    comment := (a.comment.getD "").replace "\n" " "
    first_seen := parseTs a.first_seen
    last_seen := parseTs a.last_seen
    country_name := none
    country_code := none
    region_name := none
    city := none
    related_event_info :=
      String.intercalate ", " (a.related.map (relPart evs attrsAll))
    event_info := ((evtObj.bind (fun e => e.info)).getD "").replace "\n" " "
    event_galaxy_names :=
      String.intercalate ", "
        (((evtObj.map (fun e => e.galaxies)).getD []).map (fun g => g.name)) }

/-! ## Chunking (`for start in range(0, total, CSV_CHUNK)`) -/

/-- The chunks the COPY loop iterates over:
`range(0, total, C)` visits `(total + C - 1) / C` starts `0, C, 2C, …`,
and the chunk at `start` is `attrs[start : start + C]`. -/
def pyChunks {α : Type} (l : List α) (C : Nat) : List (List α) :=
  (List.range ((l.length + C - 1) / C)).map
    (fun i => (l.drop (i * C)).take C)

/-! ## Run model: commit trace -/

/-- The input of one backfill / sync run, at the network boundary:
the fetched attribute records (phase 1) and event records (phase 2). -/
structure FetchInput where
  attrs : List MispAttr
  evs : List MispEvent
deriving DecidableEq, Repr

/-- The first committed transaction of a run: `execute_batch` of
`EVT_SQL` over `evt_params`, then of `CORR_SQL` over `corr_params`
(skipped when `corr_params` is empty, which changes nothing), then
`conn.commit()`. -/
def commitEventsCorrs (parseTs toDt : Option String → Option Time)
    (inp : FetchInput) (db : DB) : DB :=
  { db with
    events_minimal :=
      upsertBatch (fun e => e.id) db.events_minimal
        (inp.evs.map (evtRowOf toDt))
    attribute_correlations :=
      upsertBatch (fun c => (c.attr_id, c.related_attr_id))
        db.attribute_correlations (corrParamsOf parseTs inp.attrs) }

/-- One COPY of a chunk into `attributes_minimal`: a plain append, no
conflict target. -/
def copyChunk (rowOf : MispAttr → AttrRow) (db : DB)
    (chunk : List MispAttr) : DB :=
  { db with attributes_minimal :=
      db.attributes_minimal ++ chunk.map rowOf }

/-- The committed states of the COPY loop: the state before the loop
(already committed), then the state after each per-chunk
`conn.commit()`. -/
def copyChunkStates (rowOf : MispAttr → AttrRow) (db : DB) :
    List (List MispAttr) → List DB
  | [] => [db]
  | c :: cs => db :: copyChunkStates rowOf (copyChunk rowOf db c) cs

/-- The state after the whole COPY loop. -/
def loadAttrs (rowOf : MispAttr → AttrRow) (db : DB)
    (attrs : List MispAttr) (C : Nat) : DB :=
  (pyChunks attrs C).foldl (copyChunk rowOf) db

/-- `UPDATE sync_state SET last_run = now WHERE id = 1`: a bare UPDATE,
no insert fallback. -/
def updateSyncState (rows : List SyncRow) (now : Time) : List SyncRow :=
  rows.map (fun r =>
    if r.id = 1 then { r with last_run := some now } else r)

/-- The final checkpoint write of a successful run. -/
def advanceCheckpoint (db : DB) (now : Time) : DB :=
  { db with sync_state := updateSyncState db.sync_state now }

/-- The commit trace of one run (backfill with `C = CSV_CHUNK_BACKFILL`,
sync with `C = CSV_CHUNK_SYNC`): the state after the events+correlations
commit, the state after each chunk commit, and last the state after the
checkpoint commit. A run that raises partway is observable as one of
the earlier trace elements. -/
def runTrace (parseTs toDt : Option String → Option Time)
    (inp : FetchInput) (now : Time) (db0 : DB) (C : Nat) : List DB :=
  let rowOf := attrRowOf parseTs toDt inp.evs inp.attrs
  let db1 := commitEventsCorrs parseTs toDt inp db0
  copyChunkStates rowOf db1 (pyChunks inp.attrs C) ++
    [advanceCheckpoint (loadAttrs rowOf db1 inp.attrs C) now]

/-- The final state of a successful run. -/
def runFinal (parseTs toDt : Option String → Option Time)
    (inp : FetchInput) (now : Time) (db0 : DB) (C : Nat) : DB :=
  advanceCheckpoint
    (loadAttrs (attrRowOf parseTs toDt inp.evs inp.attrs)
      (commitEventsCorrs parseTs toDt inp db0) inp.attrs C) now

/-! ## Sync-state read (delta window) -/

/-- `SELECT last_run FROM sync_state WHERE id=1` + `fetchone()`, then
`since = r[0] if r and r[0] else now - timedelta(hours=INTERVAL_H)`
(a stored datetime is always truthy, so any non-null value is taken). -/
def readSince (rows : List SyncRow) (now : Time) : Time :=
  match (rows.filter (fun r => decide (r.id = 1))).head? with
  | some row =>
    match row.last_run with
    | some t => t
    | none => now - INTERVAL_H * 3600
  | none => now - INTERVAL_H * 3600

/-! ## Pagination (backfill phase 1) -/

/-- The phase-1 pagination loop, fuel-indexed: starting at page `p`,
request pages until an empty block is returned, concatenating the
blocks in order (`attrs.extend(block)`); `fuel` bounds the number of
requests so the function is total — the theorems show the result is
independent of any fuel large enough to reach the first empty page,
which is the loop's termination. -/
def fetchPagesFuel (pages : Nat → List MispAttr) :
    Nat → Nat → List MispAttr
  | 0, _ => []
  | fuel + 1, p =>
    let block := pages p
    if block.isEmpty then [] else block ++ fetchPagesFuel pages fuel (p + 1)

/-! ## Geo enrichment -/

/-- A geo-database lookup result (`reader.city(ip)` fields read). -/
structure GeoResult where
  country_name : Option String
  country_code : Option String
  region_name : Option String
  city : Option String
deriving DecidableEq, Repr

/-- One element of `updates`: the parameters of one geo UPDATE. -/
structure GeoUpdate where
  id : Nat
  country_name : Option String
  country_code : Option String
  region_name : Option String
  city : Option String
deriving DecidableEq, Repr

/-- The indicator types of the selection query's `type IN (...)`. -/
def geoTypes : List String := ["ip-src", "ip-dst", "ip", "cidr", "domain"]

/-- The selection predicate of the enrichment query:
`country_name IS NULL AND type IN ('ip-src','ip-dst','ip','cidr','domain')`
(a NULL `type` matches no IN-list element). -/
def selected (r : AttrRow) : Bool :=
  r.country_name.isNone && r.type.any (fun t => geoTypes.contains t)

/-- `enrich(r)`: a domain-typed value goes through name resolution
(`dns`, modelling `socket.gethostbyname`; the per-run `dns_cache` only
memoizes this call and never changes its value), any other value is
used as the address directly; then the geo database is consulted
(`geo`, modelling `reader.city`). Either failure returns no update. -/
def enrich (dns : String → Option String)
    (geo : String → Option GeoResult) (r : AttrRow) : Option GeoUpdate :=
  let ipOpt := if r.type = some "domain" then dns r.value else some r.value
  match ipOpt with
  | none => none
  | some ip =>
    match geo ip with
    | none => none
    | some c =>
      some { id := r.id
             country_name := c.country_name
             country_code := c.country_code
             region_name := c.region_name
             city := c.city }

/-- The `updates` list of one enrichment pass over table `t`: the
selected rows, each enriched, failures skipped. (The worker pool
collects results out of order; no claim below depends on the order of
`updates`.) -/
def geoUpdates (dns : String → Option String)
    (geo : String → Option GeoResult) (t : List AttrRow) : List GeoUpdate :=
  (t.filter selected).filterMap (enrich dns geo)

/-- One geo UPDATE: sets the four geography columns of every row whose
`id` matches (`WHERE id = %(id)s`). -/
def applyGeoUpdate (t : List AttrRow) (u : GeoUpdate) : List AttrRow :=
  t.map (fun r =>
    if r.id = u.id then
      { r with country_name := u.country_name
               country_code := u.country_code
               region_name := u.region_name
               city := u.city }
    else r)

/-- The batch-update loop: the updates are applied in order (the
`BATCH_SIZE` grouping only places the intermediate commits and does not
change the final table). -/
def applyGeoUpdates (t : List AttrRow) (us : List GeoUpdate) : List AttrRow :=
  us.foldl applyGeoUpdate t

/-- Structural-recursion form of `pyChunks`, fuel-indexed. -/
def chunksAux {α : Type} (C : Nat) : Nat → List α → List (List α)
  | 0, _ => []
  | _ + 1, [] => []
  | fuel + 1, x :: xs =>
    (x :: xs).take C :: chunksAux C fuel ((x :: xs).drop C)

/-- The effect of one geo UPDATE on one row. -/
def geoRowStep (r : AttrRow) (u : GeoUpdate) : AttrRow :=
  if r.id = u.id then
    { r with country_name := u.country_name
             country_code := u.country_code
             region_name := u.region_name
             city := u.city }
  else r

/-- All columns of a row other than the four geography columns. -/
def nonGeo (r : AttrRow) :=
  (r.id, r.event_id, r.category, r.type, r.value, r.to_ids, r.uuid,
   r.created_ts, r.comment, r.first_seen, r.last_seen,
   r.related_event_info, r.event_info, r.event_galaxy_names)

/-! ## Concrete sample values (used to instantiate the theorems) -/

/-- A parse function returning no timestamp (sample instantiation of
the abstract `parse_ts` / `to_dt` parameters). -/
def ts0 : Option String → Option Time := fun _ => none

/-- A sample related-attribute entry. -/
def relX : RelatedAttr :=
  { id := 2, event_id := 20, object_relation := some "similar",
    first_seen := none, last_seen := none, comment := none }

/-- A sample fetched attribute with no related entries. -/
def attrX : MispAttr :=
  { id := 1, event_id := 10, category := some "Network activity",
    type := some "ip-dst", value := some "1.2.3.4", to_ids := some true,
    uuid := some "u-1", timestamp := some "1700000000", comment := some "",
    first_seen := none, last_seen := none, related := [] }

/-- A sample fetched attribute carrying one related entry. -/
def attrRelX : MispAttr := { attrX with related := [relX] }

/-- A sample fetched event. -/
def evX : MispEvent :=
  { id := 10, org_id := some 3, info := some "campaign", uuid := some "u-e",
    date := some "2024-01-01", attribute_count := some 2,
    timestamp := some "1700000001", threat_level_id := some 1,
    publish_timestamp := some "1700000002", feed_name := none,
    orgc_name := some "org", galaxies := [] }

/-- A sample run input: one attribute, one event. -/
def inpX : FetchInput := { attrs := [attrX], evs := [evX] }

/-- An empty warehouse. -/
def dbEmpty : DB :=
  { events_minimal := [], attribute_correlations := [],
    attributes_minimal := [], sync_state := [] }

/-- A warehouse holding only the singleton `sync_state` row, not yet
run (null `last_run`). -/
def dbX : DB := { dbEmpty with sync_state := [{ id := 1, last_run := none }] }

/-- A sample loaded attribute row with null geography, domain-typed. -/
def geoRowA : AttrRow :=
  { id := 1, event_id := 10, category := some "Network activity",
    type := some "domain", value := "a.example", to_ids := false,
    uuid := some "u-1", created_ts := none, comment := "",
    first_seen := none, last_seen := none, country_name := none,
    country_code := none, region_name := none, city := none,
    related_event_info := "", event_info := "", event_galaxy_names := "" }

/-- A second loaded row sharing `geoRowA`'s id (the table has no
uniqueness constraint), address-typed. -/
def geoRowB : AttrRow := { geoRowA with type := some "ip-dst", value := "1.2.3.4" }

/-- A resolver for which every name resolution fails. -/
def dnsNone : String → Option String := fun _ => none

/-- A geo database knowing exactly one address. -/
def geoTbl : String → Option GeoResult := fun ip =>
  if ip = "1.2.3.4" then
    some { country_name := some "Testland", country_code := some "TL",
           region_name := none, city := none }
  else none

/-- A normalizer sample: maps every fetched attribute to `geoRowA`. -/
def rowOfX : MispAttr → AttrRow := fun _ => geoRowA

/-- A page source with exactly one non-empty page (page 1). -/
def pagesX : Nat → List MispAttr := fun n => if n = 1 then [attrX] else []

/-- A sample `sync_state` table with a non-null checkpoint. -/
def syncRowsX : List SyncRow := [{ id := 1, last_run := some 42 }]

/-- A sample geo update produced by an enrichment pass. -/
def geoUpdX : GeoUpdate :=
  { id := 1, country_name := some "Testland", country_code := some "TL",
    region_name := none, city := none }

/-! ## Helper lemmas: chunking -/

lemma pyChunks_nil {α : Type} (C : Nat) (hC : 0 < C) :
    pyChunks ([] : List α) C = [] := by
  simp [pyChunks, Nat.div_eq_of_lt (show C - 1 < C by omega)]

lemma pyChunks_eq_chunksAux {α : Type} (C : Nat) (hC : 0 < C) :
    ∀ (fuel : Nat) (l : List α), l.length ≤ fuel →
      pyChunks l C = chunksAux C fuel l := by
  intro fuel
  induction fuel with
  | zero =>
    intro l hl
    have : l = [] := List.length_eq_zero.mp (Nat.le_zero.mp hl)
    subst this
    simp [pyChunks_nil C hC, chunksAux]
  | succ fuel ih =>
    intro l hl
    match l with
    | [] => simp [pyChunks_nil C hC, chunksAux]
    | x :: xs =>
      have hkey : ((x :: xs).length + C - 1) / C = xs.length / C + 1 := by
        have h1 : (x :: xs).length + C - 1 = xs.length + C := by
          simp only [List.length_cons]; omega
        rw [h1, Nat.add_div_right _ hC]
      have harith : (((x :: xs).drop C).length + C - 1) / C = xs.length / C := by
        rcases Nat.le_total C (x :: xs).length with h | h
        · congr 1
          simp only [List.length_drop, List.length_cons] at h ⊢
          omega
        · have h1 : ((x :: xs).drop C).length = 0 := by
            simp only [List.length_drop]; omega
          rw [h1]
          simp only [List.length_cons] at h
          rw [Nat.div_eq_of_lt (show 0 + C - 1 < C by omega),
            Nat.div_eq_of_lt (show xs.length < C by omega)]
      have hdroplen : ((x :: xs).drop C).length ≤ fuel := by
        simp only [List.length_drop, List.length_cons] at hl ⊢
        omega
      show pyChunks (x :: xs) C
          = (x :: xs).take C :: chunksAux C fuel ((x :: xs).drop C)
      rw [← ih _ hdroplen]
      unfold pyChunks
      rw [hkey, harith, List.range_succ_eq_map, List.map_cons, List.map_map]
      congr 1
      · simp
      · apply List.map_congr_left
        intro i _
        simp only [Function.comp_apply, List.drop_drop]
        congr 2
        rw [Nat.succ_mul, Nat.mul_comm i C, Nat.add_comm]

lemma chunksAux_flatten {α : Type} (C : Nat) (hC : 0 < C) :
    ∀ (fuel : Nat) (l : List α), l.length ≤ fuel →
      (chunksAux C fuel l).flatten = l := by
  intro fuel
  induction fuel with
  | zero =>
    intro l hl
    have : l = [] := List.length_eq_zero.mp (Nat.le_zero.mp hl)
    subst this
    simp [chunksAux]
  | succ fuel ih =>
    intro l hl
    match l with
    | [] => simp [chunksAux]
    | x :: xs =>
      have hdroplen : ((x :: xs).drop C).length ≤ fuel := by
        simp only [List.length_drop, List.length_cons] at hl ⊢
        omega
      show ((x :: xs).take C :: chunksAux C fuel ((x :: xs).drop C)).flatten
          = x :: xs
      rw [List.flatten_cons, ih _ hdroplen, List.take_append_drop]

/-- Joining the COPY chunks back together recovers the attribute list:
the chunk loop covers every row exactly once, in order. -/
lemma pyChunks_flatten {α : Type} (l : List α) (C : Nat) (hC : 0 < C) :
    (pyChunks l C).flatten = l := by
  rw [pyChunks_eq_chunksAux C hC l.length l le_rfl]
  exact chunksAux_flatten C hC l.length l le_rfl

lemma pyChunks_length {α : Type} (l : List α) (C : Nat) :
    (pyChunks l C).length = (l.length + C - 1) / C := by
  simp [pyChunks]

lemma pyChunks_getElem? {α : Type} (l : List α) (C : Nat) (i : Nat)
    (hi : i < (l.length + C - 1) / C) :
    (pyChunks l C)[i]? = some ((l.drop (i * C)).take C) := by
  simp [pyChunks, List.getElem?_range hi]

/-- The length of the `i`-th chunk. -/
lemma pyChunks_map_length_getElem? {α : Type} (l : List α) (C : Nat)
    (i : Nat) (hi : i < (l.length + C - 1) / C) :
    ((pyChunks l C).map List.length)[i]? = some (min C (l.length - i * C)) := by
  rw [List.getElem?_map, pyChunks_getElem? l C i hi]
  simp

/-! ## Helper lemmas: the COPY loop trace -/

lemma copyChunkStates_length (rowOf : MispAttr → AttrRow) (db : DB)
    (cs : List (List MispAttr)) :
    (copyChunkStates rowOf db cs).length = cs.length + 1 := by
  induction cs generalizing db with
  | nil => simp [copyChunkStates]
  | cons c cs ih => simp [copyChunkStates, ih]

lemma copyChunkStates_ne_nil (rowOf : MispAttr → AttrRow) (db : DB)
    (cs : List (List MispAttr)) :
    copyChunkStates rowOf db cs ≠ [] := by
  cases cs <;> simp [copyChunkStates]

/-- The state visible after the `i`-th commit of the COPY loop: the
initial table extended by the rows of the first `i` chunks, everything
else untouched. -/
lemma copyChunkStates_getElem? (rowOf : MispAttr → AttrRow) :
    ∀ (cs : List (List MispAttr)) (db : DB) (i : Nat), i ≤ cs.length →
      (copyChunkStates rowOf db cs)[i]? =
        some { db with attributes_minimal :=
          db.attributes_minimal ++ ((cs.take i).flatten).map rowOf } := by
  intro cs
  induction cs with
  | nil =>
    intro db i hi
    have : i = 0 := Nat.le_zero.mp hi
    subst this
    simp [copyChunkStates]
  | cons c cs ih =>
    intro db i hi
    match i with
    | 0 => simp [copyChunkStates]
    | j + 1 =>
      have hj : j ≤ cs.length := by simpa using hi
      show (db :: copyChunkStates rowOf (copyChunk rowOf db c) cs)[j + 1]? = _
      rw [List.getElem?_cons_succ, ih _ j hj]
      simp [copyChunk, List.map_append, List.append_assoc]

lemma foldl_copyChunk (rowOf : MispAttr → AttrRow) :
    ∀ (cs : List (List MispAttr)) (db : DB),
      cs.foldl (copyChunk rowOf) db =
        { db with attributes_minimal :=
            db.attributes_minimal ++ (cs.flatten).map rowOf } := by
  intro cs
  induction cs with
  | nil => intro db; simp
  | cons c cs ih =>
    intro db
    rw [List.foldl_cons, ih]
    simp [copyChunk, List.map_append, List.append_assoc]

/-- The last COPY-loop state is the state after the whole load. -/
lemma copyChunkStates_getLast? (rowOf : MispAttr → AttrRow)
    (cs : List (List MispAttr)) (db : DB) :
    (copyChunkStates rowOf db cs).getLast? =
      some (cs.foldl (copyChunk rowOf) db) := by
  have h := copyChunkStates_getElem? rowOf cs db cs.length le_rfl
  rw [List.getLast?_eq_getElem?, copyChunkStates_length]
  simpa [foldl_copyChunk, List.take_of_length_le (le_refl cs.length)] using h

lemma loadAttrs_eq (rowOf : MispAttr → AttrRow) (db : DB)
    (attrs : List MispAttr) (C : Nat) :
    loadAttrs rowOf db attrs C =
      { db with attributes_minimal :=
          db.attributes_minimal ++ ((pyChunks attrs C).flatten).map rowOf } := by
  rw [loadAttrs, foldl_copyChunk]

/-- The load phase appends exactly the normalized rows, in order. -/
lemma loadAttrs_attrs (rowOf : MispAttr → AttrRow) (db : DB)
    (attrs : List MispAttr) (C : Nat) (hC : 0 < C) :
    (loadAttrs rowOf db attrs C).attributes_minimal =
      db.attributes_minimal ++ attrs.map rowOf := by
  rw [loadAttrs_eq, pyChunks_flatten attrs C hC]

/-! ## Helper lemmas: the run trace -/

lemma runTrace_length (parseTs toDt : Option String → Option Time)
    (inp : FetchInput) (now : Time) (db0 : DB) (C : Nat) :
    (runTrace parseTs toDt inp now db0 C).length =
      (pyChunks inp.attrs C).length + 2 := by
  simp [runTrace, copyChunkStates_length]

lemma runTrace_getLast? (parseTs toDt : Option String → Option Time)
    (inp : FetchInput) (now : Time) (db0 : DB) (C : Nat) :
    (runTrace parseTs toDt inp now db0 C).getLast? =
      some (runFinal parseTs toDt inp now db0 C) := by
  simp [runTrace, runFinal]

lemma commitEventsCorrs_sync (parseTs toDt : Option String → Option Time)
    (inp : FetchInput) (db : DB) :
    (commitEventsCorrs parseTs toDt inp db).sync_state = db.sync_state := rfl

lemma commitEventsCorrs_attrs (parseTs toDt : Option String → Option Time)
    (inp : FetchInput) (db : DB) :
    (commitEventsCorrs parseTs toDt inp db).attributes_minimal =
      db.attributes_minimal := rfl

/-- Every state strictly before the checkpoint commit carries the
initial `sync_state` rows unchanged. -/
lemma runTrace_getElem?_sync (parseTs toDt : Option String → Option Time)
    (inp : FetchInput) (now : Time) (db0 : DB) (C : Nat) (m : Nat)
    (hm : m < (pyChunks inp.attrs C).length + 1) :
    ((runTrace parseTs toDt inp now db0 C)[m]?).map DB.sync_state =
      some db0.sync_state := by
  rw [runTrace]
  rw [List.getElem?_append_left (by rw [copyChunkStates_length]; exact hm)]
  rw [copyChunkStates_getElem? _ _ _ m (Nat.lt_succ_iff.mp hm)]
  rfl

/-- The table contents at each commit point: the initial
`attributes_minimal` extended by the rows of the chunks committed so
far (all of them at the final, checkpoint commit). -/
lemma runTrace_getElem?_attrs (parseTs toDt : Option String → Option Time)
    (inp : FetchInput) (now : Time) (db0 : DB) (C : Nat) (m : Nat)
    (hm : m ≤ (pyChunks inp.attrs C).length + 1) :
    ((runTrace parseTs toDt inp now db0 C)[m]?).map DB.attributes_minimal =
      some (db0.attributes_minimal ++
        (((pyChunks inp.attrs C).take m).flatten).map
          (attrRowOf parseTs toDt inp.evs inp.attrs)) := by
  rcases Nat.lt_or_ge m ((pyChunks inp.attrs C).length + 1) with h | h
  · rw [runTrace]
    rw [List.getElem?_append_left (by rw [copyChunkStates_length]; exact h)]
    rw [copyChunkStates_getElem? _ _ _ m (Nat.lt_succ_iff.mp h)]
    rfl
  · have hm' : m = (pyChunks inp.attrs C).length + 1 := le_antisymm hm h
    subst hm'
    rw [runTrace]
    rw [List.getElem?_append_right (by rw [copyChunkStates_length])]
    rw [copyChunkStates_length]
    simp only [Nat.sub_self, List.getElem?_cons_zero]
    rw [List.take_of_length_le (by omega), loadAttrs_eq]
    rfl

/-! ## Helper lemmas: insert-or-ignore -/

lemma insertIgnore_extends {α κ : Type} [DecidableEq κ] (key : α → κ)
    (t : List α) (e : α) : t <+: insertIgnore key t e := by
  unfold insertIgnore
  split
  · exact List.prefix_refl t
  · exact ⟨[e], rfl⟩

lemma upsertBatch_extends {α κ : Type} [DecidableEq κ] (key : α → κ) :
    ∀ (es : List α) (t : List α), t <+: upsertBatch key t es := by
  intro es
  induction es with
  | nil => intro t; exact List.prefix_refl t
  | cons e es ih =>
    intro t
    exact (insertIgnore_extends key t e).trans (ih (insertIgnore key t e))

/-- After the batch, every inserted row's key is present. -/
lemma upsertBatch_key_mem {α κ : Type} [DecidableEq κ] (key : α → κ) :
    ∀ (es : List α) (t : List α) (e : α), e ∈ es →
      ∃ x ∈ upsertBatch key t es, key x = key e := by
  intro es
  induction es with
  | nil => intro t e he; cases he
  | cons e' es ih =>
    intro t e he
    rcases List.mem_cons.mp he with rfl | he'
    · unfold upsertBatch List.foldl
      by_cases h : (t.any (fun x => decide (key x = key e))) = true
      · rcases List.any_eq_true.mp h with ⟨x, hx, hkx⟩
        refine ⟨x, ?_, of_decide_eq_true hkx⟩
        exact (upsertBatch_extends key es _).subset
          (by rw [insertIgnore, if_pos h]; exact hx)
      · refine ⟨e, ?_, rfl⟩
        exact (upsertBatch_extends key es _).subset
          (by rw [insertIgnore, if_neg h]; exact List.mem_append_right _ (by simp))
    · exact ih _ e he'

/-- A batch whose every key is already present changes nothing. -/
lemma upsertBatch_eq_self {α κ : Type} [DecidableEq κ] (key : α → κ) :
    ∀ (es : List α) (t : List α),
      (∀ e ∈ es, ∃ x ∈ t, key x = key e) → upsertBatch key t es = t := by
  intro es
  induction es with
  | nil => intro t _; rfl
  | cons e es ih =>
    intro t h
    have he : insertIgnore key t e = t := by
      rcases h e (List.mem_cons_self e es) with ⟨x, hx, hkx⟩
      rw [insertIgnore, if_pos]
      exact List.any_eq_true.mpr ⟨x, hx, decide_eq_true hkx⟩
    unfold upsertBatch List.foldl
    rw [he]
    exact ih t (fun e' he' => h e' (List.mem_cons_of_mem e he'))

/-- Insert-or-ignore batches are idempotent. -/
lemma upsertBatch_idem {α κ : Type} [DecidableEq κ] (key : α → κ)
    (t : List α) (es : List α) :
    upsertBatch key (upsertBatch key t es) es = upsertBatch key t es := by
  apply upsertBatch_eq_self
  intro e he
  exact upsertBatch_key_mem key es t e he

/-! ## Helper lemmas: geo enrichment -/

lemma applyGeoUpdate_eq (t : List AttrRow) (u : GeoUpdate) :
    applyGeoUpdate t u = t.map (fun r => geoRowStep r u) := rfl

/-- The batch-update loop acts row-wise: each row of the table goes
through the whole update sequence independently. -/
lemma applyGeoUpdates_eq_map :
    ∀ (us : List GeoUpdate) (t : List AttrRow),
      applyGeoUpdates t us = t.map (fun r => us.foldl geoRowStep r) := by
  intro us
  induction us with
  | nil => intro t; simp [applyGeoUpdates]
  | cons u us ih =>
    intro t
    show applyGeoUpdates (applyGeoUpdate t u) us = _
    rw [ih, applyGeoUpdate_eq, List.map_map]
    rfl

lemma nonGeo_geoRowStep (r : AttrRow) (u : GeoUpdate) :
    nonGeo (geoRowStep r u) = nonGeo r := by
  unfold geoRowStep
  split <;> rfl

lemma nonGeo_foldl_geoRowStep :
    ∀ (us : List GeoUpdate) (r : AttrRow),
      nonGeo (us.foldl geoRowStep r) = nonGeo r := by
  intro us
  induction us with
  | nil => intro r; rfl
  | cons u us ih =>
    intro r
    rw [List.foldl_cons, ih, nonGeo_geoRowStep]

lemma foldl_geoRowStep_id (r : AttrRow) (u : GeoUpdate) :
    (geoRowStep r u).id = r.id := by
  unfold geoRowStep
  split <;> rfl

/-- A row whose id matches no update is left exactly as it was. -/
lemma foldl_geoRowStep_of_ne :
    ∀ (us : List GeoUpdate) (r : AttrRow),
      (∀ u ∈ us, u.id ≠ r.id) → us.foldl geoRowStep r = r := by
  intro us
  induction us with
  | nil => intro r _; rfl
  | cons u us ih =>
    intro r h
    have hu : geoRowStep r u = r := by
      rw [geoRowStep, if_neg]
      exact fun he => h u (List.mem_cons_self u us) he.symm
    rw [List.foldl_cons, hu]
    exact ih r (fun u' hu' => h u' (List.mem_cons_of_mem u hu'))

/-! ## Helper lemmas: pagination -/

/-- Correctness of the pagination loop: if the first empty page past
`p` is `p + k`, any fuel above `k` makes the loop stop there and return
the in-order concatenation of the `k` non-empty pages. -/
lemma fetchPagesFuel_spec (pages : Nat → List MispAttr) :
    ∀ (k fuel p : Nat), pages (p + k) = [] →
      (∀ j < k, pages (p + j) ≠ []) → k < fuel →
      fetchPagesFuel pages fuel p =
        ((List.range k).map (fun j => pages (p + j))).flatten := by
  intro k
  induction k with
  | zero =>
    intro fuel p hempty _ hfuel
    match fuel with
    | f + 1 =>
      show (if (pages p).isEmpty then [] else _) = _
      rw [if_pos (by simpa using hempty)]
      simp
  | succ k ih =>
    intro fuel p hempty hne hfuel
    match fuel with
    | f + 1 =>
      have hp : pages p ≠ [] := by simpa using hne 0 (Nat.succ_pos k)
      show (if (pages p).isEmpty then [] else
        pages p ++ fetchPagesFuel pages f (p + 1)) = _
      rw [if_neg (by simpa [List.isEmpty_iff] using hp)]
      rw [ih f (p + 1) (by rw [show p + 1 + k = p + (k + 1) by omega]; exact hempty)
        (fun j hj => by
          rw [show p + 1 + j = p + (j + 1) by omega]
          exact hne (j + 1) (by omega))
        (by omega)]
      rw [List.range_succ_eq_map, List.map_cons, List.map_map,
        List.flatten_cons]
      have hmap : List.map ((fun j => pages (p + j)) ∘ Nat.succ) (List.range k)
          = List.map (fun j => pages (p + 1 + j)) (List.range k) := by
        apply List.map_congr_left
        intro j _
        simp only [Function.comp_apply]
        congr 1
        omega
      rw [hmap]
      simp

/-! ## Helper lemmas: run-final fields -/

lemma runFinal_sync (parseTs toDt : Option String → Option Time)
    (inp : FetchInput) (now : Time) (db0 : DB) (C : Nat) :
    (runFinal parseTs toDt inp now db0 C).sync_state =
      updateSyncState db0.sync_state now := by
  rw [runFinal, advanceCheckpoint, loadAttrs_eq]
  rfl

lemma runFinal_events (parseTs toDt : Option String → Option Time)
    (inp : FetchInput) (now : Time) (db0 : DB) (C : Nat) :
    (runFinal parseTs toDt inp now db0 C).events_minimal =
      upsertBatch (fun e => e.id) db0.events_minimal
        (inp.evs.map (evtRowOf toDt)) := by
  rw [runFinal, advanceCheckpoint, loadAttrs_eq]
  rfl

lemma runFinal_corrs (parseTs toDt : Option String → Option Time)
    (inp : FetchInput) (now : Time) (db0 : DB) (C : Nat) :
    (runFinal parseTs toDt inp now db0 C).attribute_correlations =
      upsertBatch (fun c => (c.attr_id, c.related_attr_id))
        db0.attribute_correlations (corrParamsOf parseTs inp.attrs) := by
  rw [runFinal, advanceCheckpoint, loadAttrs_eq]
  rfl

lemma runFinal_attrs (parseTs toDt : Option String → Option Time)
    (inp : FetchInput) (now : Time) (db0 : DB) (C : Nat) (hC : 0 < C) :
    (runFinal parseTs toDt inp now db0 C).attributes_minimal =
      db0.attributes_minimal ++
        inp.attrs.map (attrRowOf parseTs toDt inp.evs inp.attrs) := by
  rw [runFinal, advanceCheckpoint]
  show (loadAttrs _ _ _ _).attributes_minimal = _
  rw [loadAttrs_attrs _ _ _ _ hC]
  rfl

/-! ## Helper lemmas: prefixes -/

lemma append_left_mono {α : Type} (X : List α) {P Q : List α}
    (h : P <+: Q) : X ++ P <+: X ++ Q := by
  obtain ⟨t, rfl⟩ := h
  exact ⟨t, by rw [List.append_assoc]⟩

lemma flatten_mono {α : Type} {P Q : List (List α)} (h : P <+: Q) :
    P.flatten <+: Q.flatten := by
  obtain ⟨t, rfl⟩ := h
  exact ⟨t.flatten, by rw [List.flatten_append]⟩

lemma take_mono {α : Type} (l : List α) {i j : Nat} (hij : i ≤ j) :
    l.take i <+: l.take j := by
  have h1 : (l.take j).take i = l.take i := by
    rw [List.take_take, Nat.min_eq_left hij]
  rw [← h1]
  exact List.take_prefix i (l.take j)

lemma updateSyncState_of_no_row (now : Time) :
    ∀ (rows : List SyncRow), (∀ r ∈ rows, r.id ≠ 1) →
      updateSyncState rows now = rows := by
  intro rows
  induction rows with
  | nil => intro _; rfl
  | cons r rows ih =>
    intro h
    show (if r.id = 1 then _ else r) :: updateSyncState rows now = r :: rows
    rw [if_neg (h r (List.mem_cons_self r rows)),
      ih (fun r' hr' => h r' (List.mem_cons_of_mem r hr'))]

/-! # Claim theorems -/

/-- **C1**: the checkpoint is written only by the final commit, after the
chunked LOAD_ATTRIBUTES phase has completed: every committed state
before the final one carries the initial `sync_state` unchanged (so a
run that raises at any earlier point leaves the stored checkpoint
untouched), the final commit stores the wall-clock `now` supplied at
commit time — for every input alike, hence not the maximum timestamp
observed among fetched records — and chunks committed before a failure
are not rolled back: along the commit trace the loaded table only ever
grows by appending. -/
theorem checkpoint_write_semantics (parseTs toDt : Option String → Option Time)
    (inp : FetchInput) (now : Time) (db0 : DB) (C : Nat) (i j : Nat)
    (hij : i ≤ j) :
    (runTrace parseTs toDt inp now db0 C).getLast?
      = some (runFinal parseTs toDt inp now db0 C)
    ∧ (runFinal parseTs toDt inp now db0 C).sync_state
      = updateSyncState db0.sync_state now
    ∧ (i + 1 < (runTrace parseTs toDt inp now db0 C).length →
        ((runTrace parseTs toDt inp now db0 C)[i]?).map DB.sync_state
          = some db0.sync_state)
    ∧ (∀ a b : DB, (runTrace parseTs toDt inp now db0 C)[i]? = some a →
        (runTrace parseTs toDt inp now db0 C)[j]? = some b →
        a.attributes_minimal <+: b.attributes_minimal) := by
  refine ⟨runTrace_getLast? parseTs toDt inp now db0 C,
    runFinal_sync parseTs toDt inp now db0 C, ?_, ?_⟩
  · intro hi
    apply runTrace_getElem?_sync
    have := runTrace_length parseTs toDt inp now db0 C
    omega
  · intro a b ha hb
    have hjlen : j < (runTrace parseTs toDt inp now db0 C).length := by
      by_contra hcon
      rw [List.getElem?_eq_none (Nat.le_of_not_lt hcon)] at hb
      cases hb
    have hlen := runTrace_length parseTs toDt inp now db0 C
    have hjk : j ≤ (pyChunks inp.attrs C).length + 1 := by omega
    have hik : i ≤ (pyChunks inp.attrs C).length + 1 := by omega
    have hA := runTrace_getElem?_attrs parseTs toDt inp now db0 C i hik
    have hB := runTrace_getElem?_attrs parseTs toDt inp now db0 C j hjk
    rw [ha] at hA
    rw [hb] at hB
    simp only [Option.map_some', Option.some.injEq] at hA hB
    rw [hA, hB]
    exact append_left_mono _
      ((flatten_mono (take_mono (pyChunks inp.attrs C) hij)).map _)

/-- Witness for C1 at a concrete one-attribute run. -/
theorem checkpoint_write_semantics_witness :
    (0 : Nat) ≤ 1
    ∧ (runFinal ts0 ts0 inpX 99 dbX CSV_CHUNK_BACKFILL).sync_state
        = updateSyncState dbX.sync_state 99
    ∧ ((runTrace ts0 ts0 inpX 99 dbX CSV_CHUNK_BACKFILL)[0]?).map DB.sync_state
        = some dbX.sync_state :=
  ⟨by decide,
   (checkpoint_write_semantics ts0 ts0 inpX 99 dbX CSV_CHUNK_BACKFILL 0 1
      (by decide)).2.1,
   (checkpoint_write_semantics ts0 ts0 inpX 99 dbX CSV_CHUNK_BACKFILL 0 1
      (by decide)).2.2.1 (by decide)⟩

/-- **C2**: for every delta run, the fetch window lower bound equals the
stored `sync_state.last_run` when a non-null checkpoint row exists;
when no row exists or `last_run` is null, it equals now minus 4 hours. -/
theorem delta_window_lower_bound (rows : List SyncRow) (now t : Time)
    (row : SyncRow) :
    ((rows.filter (fun r => decide (r.id = 1))).head? = some row →
      row.last_run = some t → readSince rows now = t)
    ∧ ((rows.filter (fun r => decide (r.id = 1))).head? = none →
      readSince rows now = now - 4 * 3600)
    ∧ ((rows.filter (fun r => decide (r.id = 1))).head? = some row →
      row.last_run = none → readSince rows now = now - 4 * 3600) := by
  refine ⟨?_, ?_, ?_⟩
  · intro h1 h2
    simp [readSince, h1, h2]
  · intro h1
    simp [readSince, h1, INTERVAL_H]
  · intro h1 h2
    simp [readSince, h1, h2, INTERVAL_H]

/-- Witness for C2: a stored checkpoint of 42 is used; an absent row or
null value falls back to the default window. -/
theorem delta_window_lower_bound_witness :
    readSince syncRowsX 1000 = 42
    ∧ readSince [] 1000 = 1000 - 4 * 3600
    ∧ readSince dbX.sync_state 1000 = 1000 - 4 * 3600 :=
  ⟨(delta_window_lower_bound syncRowsX 1000 42
      { id := 1, last_run := some 42 }).1 (by decide) rfl,
   (delta_window_lower_bound [] 1000 42
      { id := 1, last_run := some 42 }).2.1 rfl,
   (delta_window_lower_bound dbX.sync_state 1000 42
      { id := 1, last_run := none }).2.2 (by decide) rfl⟩

/-- **C3**: running the full backfill twice against identical source
data yields identical `events_minimal` and `attribute_correlations`
contents — the second run's insert-or-ignore batches change nothing —
and a later run never overwrites an existing row of either table: the
prior contents persist unchanged, in place, as a prefix. -/
theorem backfill_idempotent (parseTs toDt : Option String → Option Time)
    (inp : FetchInput) (now nowb : Time) (db0 : DB) (C Cb : Nat) :
    (runFinal parseTs toDt inp nowb
        (runFinal parseTs toDt inp now db0 C) Cb).events_minimal
      = (runFinal parseTs toDt inp now db0 C).events_minimal
    ∧ (runFinal parseTs toDt inp nowb
        (runFinal parseTs toDt inp now db0 C) Cb).attribute_correlations
      = (runFinal parseTs toDt inp now db0 C).attribute_correlations
    ∧ db0.events_minimal <+:
        (runFinal parseTs toDt inp now db0 C).events_minimal
    ∧ db0.attribute_correlations <+:
        (runFinal parseTs toDt inp now db0 C).attribute_correlations := by
  refine ⟨?_, ?_, ?_, ?_⟩
  · rw [runFinal_events, runFinal_events, upsertBatch_idem]
  · rw [runFinal_corrs, runFinal_corrs, upsertBatch_idem]
  · rw [runFinal_events]
    exact upsertBatch_extends _ _ _
  · rw [runFinal_corrs]
    exact upsertBatch_extends _ _ _

/-- **C4**: the attribute bulk-load enforces no uniqueness on
`Attribute.id` — the COPY has no conflict target — so loading the same
non-empty history twice appends every row a second time, leaving
duplicate rows in `attributes_minimal`. -/
theorem attr_load_no_uniqueness (rowOf : MispAttr → AttrRow) (db : DB)
    (l : List MispAttr) (C : Nat) (hC : 0 < C) (hne : l ≠ []) :
    (loadAttrs rowOf (loadAttrs rowOf db l C) l C).attributes_minimal
      = db.attributes_minimal ++ l.map rowOf ++ l.map rowOf
    ∧ (loadAttrs rowOf (loadAttrs rowOf db l C) l C).attributes_minimal.length
      = db.attributes_minimal.length + 2 * l.length
    ∧ ∃ r : AttrRow,
        2 ≤ ((loadAttrs rowOf (loadAttrs rowOf db l C) l C).attributes_minimal).count r := by
  have h1 : (loadAttrs rowOf (loadAttrs rowOf db l C) l C).attributes_minimal
      = db.attributes_minimal ++ l.map rowOf ++ l.map rowOf := by
    rw [loadAttrs_attrs _ _ _ _ hC, loadAttrs_attrs _ _ _ _ hC]
  refine ⟨h1, ?_, ?_⟩
  · rw [h1]
    simp [List.length_append]
    ring
  · refine ⟨rowOf (l.head hne), ?_⟩
    rw [h1]
    have hmem : rowOf (l.head hne) ∈ l.map rowOf :=
      List.mem_map_of_mem rowOf (List.head_mem hne)
    have hc : 0 < (l.map rowOf).count (rowOf (l.head hne)) :=
      List.count_pos_iff.mpr hmem
    rw [List.count_append, List.count_append]
    omega

/-- Witness for C4: one row loaded twice with chunk size 1 appears
twice. -/
theorem attr_load_no_uniqueness_witness :
    (0 : Nat) < 1 ∧ [attrX] ≠ ([] : List MispAttr)
    ∧ ∃ r : AttrRow,
        2 ≤ ((loadAttrs rowOfX (loadAttrs rowOfX dbEmpty [attrX] 1)
          [attrX] 1).attributes_minimal).count r :=
  ⟨by decide, by decide,
   (attr_load_no_uniqueness rowOfX dbEmpty [attrX] 1
      (by decide) (by decide)).2.2⟩

/-- The concrete 250,000-row / 100,000-chunk shape. -/
lemma pyChunks_map_length_250k (l : List MispAttr) (h : l.length = 250000) :
    (pyChunks l 100000).map List.length = [100000, 100000, 50000] := by
  apply List.ext_getElem?
  intro i
  match i with
  | 0 =>
    rw [pyChunks_map_length_getElem? l 100000 0 (by rw [h]; norm_num)]
    rw [h]
    norm_num
  | 1 =>
    rw [pyChunks_map_length_getElem? l 100000 1 (by rw [h]; norm_num)]
    rw [h]
    norm_num
  | 2 =>
    rw [pyChunks_map_length_getElem? l 100000 2 (by rw [h]; norm_num)]
    rw [h]
    norm_num
  | n + 3 =>
    have hlen : ((pyChunks l 100000).map List.length).length = 3 := by
      rw [List.length_map, pyChunks_length, h]
    rw [List.getElem?_eq_none (by omega),
      List.getElem?_eq_none (by simp)]

/-- **C5**: the COPY loop performs exactly ⌈N/C⌉ load operations with a
commit after each; every chunk before the last has exactly C rows and
the last has N mod C rows when C does not divide N (C rows each
otherwise); 250,000 rows at chunk size 100,000 give exactly three loads
of 100,000, 100,000 and 50,000 rows, and the state committed after the
second chunk holds exactly 200,000 loaded rows. -/
theorem chunked_load_shape (l : List MispAttr) (C : Nat) (hC : 0 < C)
    (rowOf : MispAttr → AttrRow) (db : DB) (i : Nat) :
    (pyChunks l C).length = (l.length + C - 1) / C
    ∧ (copyChunkStates rowOf db (pyChunks l C)).length
        = (pyChunks l C).length + 1
    ∧ (i + 1 < (pyChunks l C).length →
        ((pyChunks l C).map List.length)[i]? = some C)
    ∧ (l.length % C ≠ 0 →
        ((pyChunks l C).map List.length)[(pyChunks l C).length - 1]?
          = some (l.length % C))
    ∧ (l.length % C = 0 → i < (pyChunks l C).length →
        ((pyChunks l C).map List.length)[i]? = some C)
    ∧ (l.length = 250000 → C = 100000 →
        (pyChunks l C).map List.length = [100000, 100000, 50000])
    ∧ (l.length = 250000 → C = 100000 →
        ((copyChunkStates rowOf db (pyChunks l C))[2]?).map
            (fun s => s.attributes_minimal.length)
          = some (db.attributes_minimal.length + 200000)) := by
  refine ⟨pyChunks_length l C, copyChunkStates_length rowOf db _,
    ?_, ?_, ?_, ?_, ?_⟩
  · intro hi
    rw [pyChunks_length] at hi
    rw [pyChunks_map_length_getElem? l C i (by omega)]
    congr 1
    have h1 : (i + 2) * C ≤ l.length + C - 1 :=
      (Nat.le_div_iff_mul_le hC).mp (by omega)
    rw [Nat.add_mul] at h1
    obtain ⟨m, hm⟩ : ∃ m, i * C = m := ⟨i * C, rfl⟩
    rw [hm] at h1 ⊢
    exact Nat.min_eq_left (by omega)
  · intro hmod
    have hq := Nat.div_add_mod l.length C
    have hrlt : l.length % C < C := Nat.mod_lt _ hC
    obtain ⟨cq, hcq⟩ : ∃ x, C * (l.length / C) = x := ⟨_, rfl⟩
    have hk : (l.length + C - 1) / C = l.length / C + 1 := by
      have h1 : l.length + C - 1
          = C * (l.length / C + 1) + (l.length % C - 1) := by
        rw [Nat.mul_add, Nat.mul_one, hcq]
        rw [hcq] at hq
        omega
      have h2 : (l.length % C - 1) / C = 0 := Nat.div_eq_of_lt (by omega)
      rw [h1, Nat.mul_add_div hC, h2, Nat.add_zero]
    rw [pyChunks_length, hk]
    simp only [Nat.add_sub_cancel]
    rw [pyChunks_map_length_getElem? l C (l.length / C) (by rw [hk]; omega)]
    congr 1
    have hqc : l.length / C * C = cq := by rw [Nat.mul_comm]; exact hcq
    rw [hqc]
    rw [hcq] at hq
    have h2 : l.length - cq = l.length % C := by omega
    rw [h2]
    exact Nat.min_eq_right (Nat.le_of_lt hrlt)
  · intro hmod hik
    have hq := Nat.div_add_mod l.length C
    have hN : C * (l.length / C) = l.length := by
      rw [hmod] at hq
      simpa using hq
    have hk : (l.length + C - 1) / C = l.length / C := by
      have h1 : l.length + C - 1 = C * (l.length / C) + (C - 1) := by
        rw [hN]
        omega
      have h2 : (C - 1) / C = 0 := Nat.div_eq_of_lt (by omega)
      rw [h1, Nat.mul_add_div hC, h2, Nat.add_zero]
    rw [pyChunks_length, hk] at hik
    rw [pyChunks_map_length_getElem? l C i (by rw [hk]; exact hik)]
    congr 1
    have h2 : (i + 1) * C ≤ l.length / C * C :=
      Nat.mul_le_mul_right C (by omega)
    have h3 : l.length / C * C = l.length := by
      rw [Nat.mul_comm]
      exact hN
    rw [h3, Nat.add_mul, Nat.one_mul] at h2
    obtain ⟨m, hm⟩ : ∃ m, i * C = m := ⟨_, rfl⟩
    rw [hm] at h2 ⊢
    exact Nat.min_eq_left (by omega)
  · intro h250 hC100
    subst hC100
    exact pyChunks_map_length_250k l h250
  · intro h250 hC100
    subst hC100
    rw [copyChunkStates_getElem? rowOf (pyChunks l 100000) db 2
      (by rw [pyChunks_length, h250]; norm_num)]
    simp only [Option.map_some']
    congr 1
    rw [List.length_append, List.length_map, List.length_flatten,
      List.map_take, pyChunks_map_length_250k l h250]
    norm_num

/-- Witness for C5 at a concrete three-row list with chunk size 2. -/
theorem chunked_load_shape_witness :
    (0 : Nat) < 2
    ∧ (pyChunks [attrX, attrX, attrX] 2).length = (3 + 2 - 1) / 2
    ∧ ((pyChunks [attrX, attrX, attrX] 2).map List.length)[0]? = some 2
    ∧ ((pyChunks [attrX, attrX, attrX] 2).map
        List.length)[(pyChunks [attrX, attrX, attrX] 2).length - 1]?
        = some (3 % 2) :=
  ⟨by decide,
   (chunked_load_shape [attrX, attrX, attrX] 2 (by decide) rowOfX dbEmpty 0).1,
   (chunked_load_shape [attrX, attrX, attrX] 2 (by decide) rowOfX dbEmpty 0).2.2.1
     (by decide),
   by
     have h := (chunked_load_shape [attrX, attrX, attrX] 2 (by decide)
       rowOfX dbEmpty 0).2.2.2.1 (by decide)
     simpa using h⟩

/-- **C6**: the phase-1 pagination loop requests successive pages from
page 1 and stops exactly at the first empty page: whenever the source
eventually returns an empty page the loop terminates — its value agrees
for all sufficient fuels — and produces the in-order concatenation of
all pages strictly before the first empty one. -/
theorem pagination_fetch (pages : Nat → List MispAttr) (k fuel fuelb : Nat)
    (hempty : pages (1 + k) = [])
    (hne : ∀ j < k, pages (1 + j) ≠ [])
    (hfuel : k < fuel) (hfuelb : k < fuelb) :
    fetchPagesFuel pages fuel 1 =
      ((List.range k).map (fun j => pages (1 + j))).flatten
    ∧ fetchPagesFuel pages fuel 1 = fetchPagesFuel pages fuelb 1 := by
  have h1 := fetchPagesFuel_spec pages k fuel 1 hempty hne hfuel
  have h2 := fetchPagesFuel_spec pages k fuelb 1 hempty hne hfuelb
  exact ⟨h1, h1.trans h2.symm⟩

/-- Witness for C6: a source with one non-empty page. -/
theorem pagination_fetch_witness :
    pagesX (1 + 1) = []
    ∧ (1 : Nat) < 2
    ∧ fetchPagesFuel pagesX 2 1 =
        ((List.range 1).map (fun j => pagesX (1 + j))).flatten
    ∧ fetchPagesFuel pagesX 2 1 = fetchPagesFuel pagesX 5 1 :=
  ⟨by decide, by decide,
   (pagination_fetch pagesX 1 2 5 (by decide) (by decide)
      (by decide) (by decide)).1,
   (pagination_fetch pagesX 1 2 5 (by decide) (by decide)
      (by decide) (by decide)).2⟩

/-- **C7**: correlation extraction emits exactly one edge candidate per
embedded related-attribute entry of each fetched attribute — the edge
carries exactly the supplied fields, directed from the carrying
attribute to the embedded entry, and membership in the emitted list is
exactly "comes from some embedded entry", so no reciprocal edge is
synthesized — and attributes without related entries produce nothing. -/
theorem correlation_extraction (parseTs : Option String → Option Time)
    (attrs : List MispAttr) (a : MispAttr) (c : CorrRow) :
    (corrParamsOf parseTs attrs).length
      = (attrs.map (fun x => x.related.length)).sum
    ∧ (c ∈ corrParamsOf parseTs attrs ↔
        ∃ x ∈ attrs, ∃ r ∈ x.related, c = corrOfRelated parseTs x.id r)
    ∧ (∀ r : RelatedAttr,
        (corrOfRelated parseTs a.id r).attr_id = a.id
        ∧ (corrOfRelated parseTs a.id r).related_attr_id = r.id
        ∧ (corrOfRelated parseTs a.id r).related_event_id = r.event_id
        ∧ (corrOfRelated parseTs a.id r).relationship_type
            = r.object_relation.getD ""
        ∧ (corrOfRelated parseTs a.id r).first_seen = parseTs r.first_seen
        ∧ (corrOfRelated parseTs a.id r).last_seen = parseTs r.last_seen
        ∧ (corrOfRelated parseTs a.id r).comment = r.comment.getD "")
    ∧ (a.related = [] → corrParamsOf parseTs [a] = [])
    ∧ ((∀ x ∈ attrs, x.related = []) → corrParamsOf parseTs attrs = []) := by
  refine ⟨?_, ?_, ?_, ?_, ?_⟩
  · rw [corrParamsOf, List.length_flatMap]
    congr 1
    apply List.map_congr_left
    intro x _
    simp
  · simp only [corrParamsOf, List.mem_flatMap, List.mem_map]
    constructor
    · rintro ⟨x, hx, r, hr, rfl⟩
      exact ⟨x, hx, r, hr, rfl⟩
    · rintro ⟨x, hx, r, hr, rfl⟩
      exact ⟨x, hx, r, hr, rfl⟩
  · intro r
    exact ⟨rfl, rfl, rfl, rfl, rfl, rfl, rfl⟩
  · intro h
    simp [corrParamsOf, h]
  · intro h
    rw [corrParamsOf, List.flatMap_eq_nil_iff]
    intro x hx
    simp [h x hx]

/-- Witness for C7: one attribute with one related entry yields one
edge; an attribute without related entries yields none. -/
theorem correlation_extraction_witness :
    (corrParamsOf ts0 [attrRelX]).length
      = ([attrRelX].map (fun x => x.related.length)).sum
    ∧ corrParamsOf ts0 [attrX] = []
    ∧ (corrOfRelated ts0 attrRelX.id relX).attr_id = attrRelX.id
    ∧ (corrOfRelated ts0 attrRelX.id relX).related_attr_id = relX.id :=
  ⟨(correlation_extraction ts0 [attrRelX] attrX
      (corrOfRelated ts0 1 relX)).1,
   (correlation_extraction ts0 [attrRelX] attrX
      (corrOfRelated ts0 1 relX)).2.2.2.1 rfl,
   ((correlation_extraction ts0 [attrRelX] attrRelX
      (corrOfRelated ts0 1 relX)).2.2.1 relX).1,
   ((correlation_extraction ts0 [attrRelX] attrRelX
      (corrOfRelated ts0 1 relX)).2.2.1 relX).2.1⟩

/-- **C8 counterexample**: the table enforces no id uniqueness, so two
loaded rows can share id 1 — a selected domain-typed row whose name
resolution fails and an address-typed row that enriches. The UPDATE is
keyed on id alone, so the pass writes geography into the failed domain
row as well: its `country_name` does not remain null and it no longer
satisfies the selection predicate. -/
theorem geo_domain_fail_counterexample :
    selected geoRowA = true
    ∧ geoRowA.type = some "domain"
    ∧ dnsNone geoRowA.value = none
    ∧ enrich dnsNone geoTbl geoRowA = none
    ∧ ((applyGeoUpdates [geoRowA, geoRowB]
          (geoUpdates dnsNone geoTbl [geoRowA, geoRowB]))[0]?).map
        AttrRow.country_name = some (some "Testland")
    ∧ ((applyGeoUpdates [geoRowA, geoRowB]
          (geoUpdates dnsNone geoTbl [geoRowA, geoRowB]))[0]?).map selected
        = some false := by
  decide

/-- **C8 (amended)**: for every domain-typed row selected for geo
enrichment whose name resolution fails, the pass produces no update
derived from that row, and skipping it does not disturb the rest of the
batch; provided additionally that no update produced by the pass
carries the same id (possible only through duplicate-id rows), the row
is unchanged after the pass — its geography fields remain null — and it
still satisfies the selection predicate of a future pass. -/
theorem geo_domain_fail_skipped (dns : String → Option String)
    (geo : String → Option GeoResult) (t : List AttrRow) (i : Nat)
    (r : AttrRow) (hr : t[i]? = some r)
    (hdom : r.type = some "domain") (hfail : dns r.value = none)
    (hno : ∀ u ∈ geoUpdates dns geo t, u.id ≠ r.id) :
    enrich dns geo r = none
    ∧ (∀ rest : List AttrRow,
        geoUpdates dns geo (r :: rest) = geoUpdates dns geo rest)
    ∧ (applyGeoUpdates t (geoUpdates dns geo t))[i]? = some r
    ∧ (selected r = true →
        ((applyGeoUpdates t (geoUpdates dns geo t))[i]?).map selected
          = some true) := by
  have hen : enrich dns geo r = none := by
    simp [enrich, hdom, hfail]
  have hsame : (applyGeoUpdates t (geoUpdates dns geo t))[i]? = some r := by
    rw [applyGeoUpdates_eq_map, List.getElem?_map, hr]
    simp only [Option.map_some']
    rw [foldl_geoRowStep_of_ne _ r hno]
  refine ⟨hen, ?_, hsame, ?_⟩
  · intro rest
    rw [geoUpdates, geoUpdates, List.filter_cons]
    by_cases hs : selected r = true
    · rw [if_pos hs, List.filterMap_cons_none hen]
    · rw [if_neg hs]
  · intro hs
    rw [hsame]
    simp [hs]

/-- Witness for the amended C8: a single failing domain row passes
through the enrichment pass unchanged. -/
theorem geo_domain_fail_skipped_witness :
    geoRowA.type = some "domain"
    ∧ dnsNone geoRowA.value = none
    ∧ enrich dnsNone geoTbl geoRowA = none
    ∧ (applyGeoUpdates [geoRowA] (geoUpdates dnsNone geoTbl [geoRowA]))[0]?
        = some geoRowA :=
  ⟨by decide, by decide,
   (geo_domain_fail_skipped dnsNone geoTbl [geoRowA] 0 geoRowA
      (by decide) (by decide) (by decide) (by decide)).1,
   (geo_domain_fail_skipped dnsNone geoTbl [geoRowA] 0 geoRowA
      (by decide) (by decide) (by decide) (by decide)).2.2.1⟩

/-- **C9**: advancing the checkpoint is a bare UPDATE of the singleton
row id=1 with no insert fallback: when no such row exists the step —
and a whole successful run — leaves the database entirely unchanged, no
checkpoint row is ever created (`updateSyncState` never changes the row
count), and every subsequent delta read falls back to now minus 4
hours. -/
theorem checkpoint_update_no_insert (db : DB) (now nowd : Time)
    (h : ∀ r ∈ db.sync_state, r.id ≠ 1) :
    updateSyncState db.sync_state now = db.sync_state
    ∧ advanceCheckpoint db now = db
    ∧ (∀ (parseTs toDt : Option String → Option Time) (inp : FetchInput)
        (C : Nat),
        (runFinal parseTs toDt inp now db C).sync_state = db.sync_state)
    ∧ (∀ (rows : List SyncRow) (nowb : Time),
        (updateSyncState rows nowb).length = rows.length)
    ∧ readSince db.sync_state nowd = nowd - 4 * 3600 := by
  have hu := updateSyncState_of_no_row now db.sync_state h
  refine ⟨hu, ?_, ?_, ?_, ?_⟩
  · rw [advanceCheckpoint, hu]
  · intro parseTs toDt inp C
    rw [runFinal_sync, hu]
  · intro rows nowb
    rw [updateSyncState, List.length_map]
  · have hf : db.sync_state.filter (fun r => decide (r.id = 1)) = [] :=
      List.filter_eq_nil_iff.mpr (fun r hr => by simpa using h r hr)
    simp [readSince, hf, INTERVAL_H]

/-- Witness for C9 on an empty `sync_state`. -/
theorem checkpoint_update_no_insert_witness :
    updateSyncState dbEmpty.sync_state 7 = dbEmpty.sync_state
    ∧ advanceCheckpoint dbEmpty 7 = dbEmpty
    ∧ (runFinal ts0 ts0 inpX 7 dbEmpty CSV_CHUNK_BACKFILL).sync_state
        = dbEmpty.sync_state
    ∧ readSince dbEmpty.sync_state 100 = 100 - 4 * 3600 :=
  ⟨(checkpoint_update_no_insert dbEmpty 7 100 (by decide)).1,
   (checkpoint_update_no_insert dbEmpty 7 100 (by decide)).2.1,
   (checkpoint_update_no_insert dbEmpty 7 100 (by decide)).2.2.1
      ts0 ts0 inpX CSV_CHUNK_BACKFILL,
   (checkpoint_update_no_insert dbEmpty 7 100 (by decide)).2.2.2.2⟩

/-- **C10**: each geo batch update modifies only the four geography
columns of rows whose id matches an update: the table keeps its length,
every other column of every row is unchanged, and a row matching no
update in the pass is unchanged entirely. -/
theorem geo_update_frame (t : List AttrRow) (us : List GeoUpdate)
    (i : Nat) (r rb : AttrRow)
    (hr : t[i]? = some r)
    (hrb : (applyGeoUpdates t us)[i]? = some rb) :
    (applyGeoUpdates t us).length = t.length
    ∧ rb.id = r.id ∧ rb.event_id = r.event_id ∧ rb.category = r.category
    ∧ rb.type = r.type ∧ rb.value = r.value ∧ rb.to_ids = r.to_ids
    ∧ rb.uuid = r.uuid ∧ rb.created_ts = r.created_ts
    ∧ rb.comment = r.comment ∧ rb.first_seen = r.first_seen
    ∧ rb.last_seen = r.last_seen
    ∧ rb.related_event_info = r.related_event_info
    ∧ rb.event_info = r.event_info
    ∧ rb.event_galaxy_names = r.event_galaxy_names
    ∧ ((∀ u ∈ us, u.id ≠ r.id) → rb = r) := by
  have hlen : (applyGeoUpdates t us).length = t.length := by
    rw [applyGeoUpdates_eq_map, List.length_map]
  have hrb' : rb = us.foldl geoRowStep r := by
    rw [applyGeoUpdates_eq_map, List.getElem?_map, hr] at hrb
    simp only [Option.map_some', Option.some.injEq] at hrb
    exact hrb.symm
  have hng := nonGeo_foldl_geoRowStep us r
  rw [← hrb'] at hng
  simp only [nonGeo, Prod.mk.injEq] at hng
  obtain ⟨h1, h2, h3, h4, h5, h6, h7, h8, h9, h10, h11, h12, h13, h14⟩ := hng
  refine ⟨hlen, h1, h2, h3, h4, h5, h6, h7, h8, h9, h10, h11, h12, h13, h14,
    ?_⟩
  intro hno
  rw [hrb']
  exact foldl_geoRowStep_of_ne us r hno

/-- Witness for C10: a matching update preserves row count and all
non-geography columns. -/
theorem geo_update_frame_witness :
    (applyGeoUpdates [geoRowA] [geoUpdX]).length = [geoRowA].length
    ∧ ({ geoRowA with country_name := some "Testland",
                      country_code := some "TL" } : AttrRow).id = geoRowA.id :=
  ⟨(geo_update_frame [geoRowA] [geoUpdX] 0 geoRowA
      { geoRowA with country_name := some "Testland",
                     country_code := some "TL" }
      (by decide) (by decide)).1,
   (geo_update_frame [geoRowA] [geoUpdX] 0 geoRowA
      { geoRowA with country_name := some "Testland",
                     country_code := some "TL" }
      (by decide) (by decide)).2.1⟩
